import Mathlib

/-!
Verification of the risk-sized webhook trading bots (OKX, Alpaca, Bybit
variants) against their specification.  Prices, risk budgets and order
quantities are modelled as rationals; Python floats are treated as exact
decimal values.  Each venue adapter's observable behaviour (network calls
that can raise, venue order rejections, fetched positions) is modelled as
explicit data in a venue-state structure; submitted orders are collected
in a list so that theorems can speak about which orders a code path sends
to the venue.
-/

/-- Floor of a rational, computed from its numerator and denominator
(`Int` division is Euclidean division, which floors for a positive
denominator). -/
def ratFloor (q : ℚ) : ℤ := q.num / q.den

theorem ratFloor_eq_floor (q : ℚ) : ratFloor q = ⌊q⌋ := by
  rw [ratFloor, Rat.floor_def]

/-- Python's banker rounding (`round` builtin) of a rational to an
integer: nearest integer, ties to even. -/
def roundHalfEven (x : ℚ) : ℤ :=
  let f := ratFloor x
  let r := x - (f : ℚ)
  if r < 1/2 then f
  else if 1/2 < r then f + 1
  else if f % 2 = 0 then f else f + 1

/-- Python's `round(x, p)`: banker rounding at `p` decimal places. -/
def pyRound (x : ℚ) (p : ℕ) : ℚ :=
  (roundHalfEven (x * 10 ^ p) : ℚ) / 10 ^ p

/-- Truncation of a rational down to `p` decimal places, the behaviour of
ccxt's `amount_to_precision` (TRUNCATE mode). -/
def truncTo (p : ℕ) (x : ℚ) : ℚ :=
  (ratFloor (x * 10 ^ p) : ℚ) / 10 ^ p

/-- A value `q` is exactly expressible at `p` decimal places. -/
def exactAt (q : ℚ) (p : ℕ) : Prop := (q * 10 ^ p).den = 1

instance (q : ℚ) (p : ℕ) : Decidable (exactAt q p) := by
  unfold exactAt; infer_instance

/-- An order request sent to a venue: the normalized `OrderIntent` of the
spec, with the per-venue extra fields (`takeProfit` for Bybit's attached
take-profit parameter). -/
structure OrderIntent where
  symbol : String
  side : String
  orderType : String
  amount : ℚ
  price : Option ℚ := none
  stopPrice : Option ℚ := none
  takeProfit : Option ℚ := none
  reduceOnly : Bool := false
deriving DecidableEq, Repr

/-- Python truthiness of an optional number (`None` and `0` are falsy). -/
def numTruthy : Option ℚ → Bool
  | none => false
  | some x => x != 0

/-- Python truthiness of an optional string (`None` and `''` are falsy). -/
def strTruthy : Option String → Bool
  | none => false
  | some s => s != ""

/-- Python's `str.upper()` on ASCII strings, defined so that it reduces
on concrete inputs. -/
def strUpper (s : String) : String := String.mk (s.data.map Char.toUpper)

/-- The parsed JSON body of a webhook request; a field that is absent from
the body is `none` (`data.get(...)` returns `None`). -/
structure WebhookRequest where
  secret : Option String := none
  signal : Option String := none
  symbol : Option String := none
  entry : Option ℚ := none
  sl : Option ℚ := none
  tp : Option ℚ := none
  risk_usd : Option ℚ := none
deriving DecidableEq, Repr

/-- The caller-visible HTTP reply: status code plus the trading fields of
the JSON payload (`order_id` for OKX/Alpaca success replies, `amount` /
`quantity` / `position_size` for the sized quantity). -/
structure Reply where
  code : ℕ
  orderId : Option ℕ := none
  amount : Option ℚ := none
deriving DecidableEq, Repr

/-! ### OKX variant (`okx_webhook_server.py`) -/

/-- ccxt market metadata for an OKX symbol.  `OKXTrader` reads only
`contractSize`; `amountPrecision` is the amount precision used by
`amount_to_precision`; `minQuantity` is the venue's minimum order amount
(`limits.amount.min`), present in the metadata but never read by the
code. -/
structure OkxMarket where
  contractSize : ℚ
  amountPrecision : ℕ
  minQuantity : ℚ
deriving DecidableEq, Repr

/-- One ccxt position: `side` is `"long"` or `"short"`, `contracts` the
(nonnegative) contract count. -/
structure OkxPosition where
  side : String
  contracts : ℚ
deriving DecidableEq, Repr

/-- Venue state for one OKX webhook call: the market lookup result
(`none` = symbol missing or `load_markets` raised), whether
`fetch_positions` succeeds, the open positions, the entry order id
(`none` = `create_market_order` raised), and whether the protective
stop-loss / take-profit submissions succeed (their failures are caught
and discarded by the code). -/
structure OkxVenue where
  market : Option OkxMarket
  fetchPositionsOk : Bool := true
  positions : List OkxPosition := []
  entryId : Option ℕ
  slOk : Bool := true
  tpOk : Bool := true
deriving DecidableEq, Repr

/-- `OKXTrader.calculate_position_size`: on a missing market or on
`entry == stop` it returns the default `0.01`; otherwise
`risk_usd / (contract_size * risk_price)` truncated to the amount
precision and raised to at least `0.01`. -/
def okxCalculatePositionSize (market : Option OkxMarket)
    (riskUsd entryPrice stopLoss : ℚ) : ℚ :=
  match market with
  | none => 1/100
  | some m =>
    let riskPrice := |entryPrice - stopLoss|
    if riskPrice = 0 then 1/100
    else
      let contracts := riskUsd / (m.contractSize * riskPrice)
      max (truncTo m.amountPrecision contracts) (1/100)

/-- `OKXTrader.place_market_order`: submit the market entry; on entry
failure return `None`.  On entry success, when `stop_loss` is truthy a
reduce-only `stop_market` order is attempted (its failure is caught and
ignored), then likewise a reduce-only take-profit limit order.  Returns
the entry order id and the list of order requests sent to the venue;
`slOk` / `tpOk` (whether the venue accepted the protective legs) do not
influence the result, exactly as the code discards `sl_order` /
`tp_order` and swallows their exceptions. -/
def okxPlaceMarketOrder (entryId : Option ℕ) (slOk tpOk : Bool)
    (symbol side : String) (amount : ℚ)
    (stopLoss takeProfit : Option ℚ) : Option ℕ × List OrderIntent :=
  let entry : OrderIntent :=
    { symbol := symbol, side := side, orderType := "market", amount := amount }
  match entryId with
  | none => (none, [entry])
  | some oid =>
    let opp := if side = "buy" then "sell" else "buy"
    let slOrders : List OrderIntent :=
      if numTruthy stopLoss then
        [{ symbol := symbol, side := opp, orderType := "stop_market",
           amount := amount, stopPrice := stopLoss, reduceOnly := true }]
      else []
    let tpOrders : List OrderIntent :=
      if numTruthy takeProfit then
        [{ symbol := symbol, side := opp, orderType := "limit",
           amount := amount, price := takeProfit, reduceOnly := true }]
      else []
    let _ := slOk
    let _ := tpOk
    (some oid, entry :: (slOrders ++ tpOrders))

/-- `OKXTrader.close_position`: fetch the positions for the symbol (a
fetch failure is caught and yields `False`); for each position with
`contracts > 0` submit a reduce-only market order on the opposing side
sized to the contract count; return `True`. -/
def okxClosePosition (fetchOk : Bool) (positions : List OkxPosition)
    (symbol : String) : Bool × List OrderIntent :=
  if fetchOk then
    (true,
      positions.filterMap fun p =>
        if p.contracts > 0 then
          some { symbol := symbol,
                 side := if p.side = "long" then "sell" else "buy",
                 orderType := "market", amount := p.contracts,
                 reduceOnly := true }
        else none)
  else (false, [])

/-- The post-authentication body of the OKX `webhook` route: extract the
fields with their defaults, validate the signal, dispatch CLOSE to
`close_position`, otherwise size and place the order. -/
def okxHandle (v : OkxVenue) (d : WebhookRequest) : Reply × List OrderIntent :=
  let signal := strUpper (d.signal.getD "")
  let symbol := d.symbol.getD "BTC/USDT:USDT"
  let entry := d.entry.getD 0
  let sl := d.sl.getD 0
  let tp := d.tp.getD 0
  let riskUsd := d.risk_usd.getD 100
  if signal ∉ ["LONG", "SHORT", "CLOSE"] then ({ code := 400 }, [])
  else if signal = "CLOSE" then
    let r := okxClosePosition v.fetchPositionsOk v.positions symbol
    if r.1 then ({ code := 200 }, r.2) else ({ code := 500 }, r.2)
  else
    let amount := okxCalculatePositionSize v.market riskUsd entry sl
    let side := if signal = "LONG" then "buy" else "sell"
    let r := okxPlaceMarketOrder v.entryId v.slOk v.tpOk symbol side amount
      (if sl ≠ 0 then some sl else none) (if tp ≠ 0 then some tp else none)
    match r.1 with
    | some oid => ({ code := 200, orderId := some oid, amount := some amount }, r.2)
    | none => ({ code := 500 }, r.2)

/-- The OKX `webhook` route: `400` on a missing/empty JSON body, `403` on
a secret mismatch (before any venue call), then `okxHandle`. -/
def okxWebhook (webhookSecret : String) (v : OkxVenue)
    (req : Option WebhookRequest) : Reply × List OrderIntent :=
  match req with
  | none => ({ code := 400 }, [])
  | some d =>
    if d.secret ≠ some webhookSecret then ({ code := 403 }, [])
    else okxHandle v d

/-- `WEBHOOK_SECRET = os.getenv('WEBHOOK_SECRET', 'your-secret-key')` in
the OKX and Alpaca servers: the configured secret defaults to the literal
`'your-secret-key'` when the environment variable is unset. -/
def defaultedWebhookSecret (env : Option String) : String :=
  env.getD "your-secret-key"

/-! ### Alpaca variant (`alpaca_webhook_server.py`) -/

/-- One Alpaca position: `qty` is signed (positive = long). -/
structure AlpacaPosition where
  symbol : String
  qty : ℚ
deriving DecidableEq, Repr

/-- Venue state for one Alpaca webhook call: whether `get_all_positions`
succeeds, the open positions, the entry order id (`none` =
`submit_order` raised), and whether the close-path `submit_order`
succeeds. -/
structure AlpacaVenue where
  positionsOk : Bool := true
  positions : List AlpacaPosition := []
  entryId : Option ℕ
  closeOk : Bool := true
deriving DecidableEq, Repr

/-- `AlpacaTrader.calculate_position_size`: `0` when the stop equals the
entry, else `risk_usd / risk_per_unit` rounded (banker rounding) to six
decimal places and raised to at least `0.0001`. -/
def alpacaCalculatePositionSize (riskUsd entryPrice stopLoss : ℚ) : ℚ :=
  let riskPerUnit := |entryPrice - stopLoss|
  if riskPerUnit = 0 then 0
  else
    let quantity := pyRound (riskUsd / riskPerUnit) 6
    if quantity < 1/10000 then 1/10000 else quantity

/-- `AlpacaTrader.place_market_order`: submit a single GTC market order;
`stop_loss` and `take_profit` are only logged — no protective order of
any kind is submitted (Alpaca crypto has no bracket support). -/
def alpacaPlaceMarketOrder (entryId : Option ℕ) (symbol side : String)
    (quantity : ℚ) (stopLoss takeProfit : Option ℚ) :
    Option ℕ × List OrderIntent :=
  let entry : OrderIntent :=
    { symbol := symbol, side := side, orderType := "market", amount := quantity }
  let _ := stopLoss
  let _ := takeProfit
  match entryId with
  | none => (none, [entry])
  | some oid => (some oid, [entry])

/-- `AlpacaTrader.close_position`: fetch all positions (a fetch failure
yields `False`); for the first position whose symbol matches, submit a
plain market order on the opposing side sized to the absolute quantity —
without any reduce-only flag — and return `True`; if no position
matches, return `False`. -/
def alpacaClosePosition (positionsOk : Bool)
    (positions : List AlpacaPosition) (closeOk : Bool) (symbol : String) :
    Bool × List OrderIntent :=
  if positionsOk then
    match positions.find? (fun p => p.symbol = symbol) with
    | some p =>
      let intent : OrderIntent :=
        { symbol := symbol,
          side := if p.qty > 0 then "SELL" else "BUY",
          orderType := "market", amount := |p.qty| }
      if closeOk then (true, [intent]) else (false, [intent])
    | none => (false, [])
  else (false, [])

/-- The post-authentication body of the Alpaca `webhook` route. -/
def alpacaHandle (v : AlpacaVenue) (d : WebhookRequest) :
    Reply × List OrderIntent :=
  let signal := strUpper (d.signal.getD "")
  let symbol := d.symbol.getD "BTC/USD"
  let entry := d.entry.getD 0
  let sl := d.sl.getD 0
  let tp := d.tp.getD 0
  let riskUsd := d.risk_usd.getD 100
  let _ := entry
  if signal ∉ ["LONG", "SHORT", "CLOSE", "BUY", "SELL"] then
    ({ code := 400 }, [])
  else if signal = "CLOSE" then
    let r := alpacaClosePosition v.positionsOk v.positions v.closeOk symbol
    if r.1 then ({ code := 200 }, r.2) else ({ code := 500 }, r.2)
  else
    let quantity := alpacaCalculatePositionSize riskUsd entry sl
    let side := if signal = "LONG" ∨ signal = "BUY" then "BUY" else "SELL"
    let r := alpacaPlaceMarketOrder v.entryId symbol side quantity (some sl) (some tp)
    match r.1 with
    | some oid => ({ code := 200, orderId := some oid, amount := some quantity }, r.2)
    | none => ({ code := 500 }, r.2)

/-- The Alpaca `webhook` route: `400` on a missing body, `403` on a
secret mismatch, then `alpacaHandle`. -/
def alpacaWebhook (webhookSecret : String) (v : AlpacaVenue)
    (req : Option WebhookRequest) : Reply × List OrderIntent :=
  match req with
  | none => ({ code := 400 }, [])
  | some d =>
    if d.secret ≠ some webhookSecret then ({ code := 403 }, [])
    else alpacaHandle v d

/-! ### Bybit variant (`binance_webhook_server.py`) -/

/-- Bybit instrument metadata read by `calculate_position_size`:
`qtyStep` from the lot-size filter (assumed an exact decimal, as printed
by the venue) and `minOrderQty`. -/
structure BybitInstrument where
  qtyStep : ℚ
  minOrderQty : ℚ
deriving DecidableEq, Repr

/-- One Bybit position: `side` is `"Buy"` or `"Sell"`, `size` the
(nonnegative) position size. -/
structure BybitPosition where
  side : String
  size : ℚ
deriving DecidableEq, Repr

/-- Venue state for one Bybit webhook call: the ticker price (`none` =
fetch failed), the instrument lookup (`none` = bad retCode or raise), the
position fetch (`none` = bad retCode or raise), and the entry order id
(`none` = rejected or raised). -/
structure BybitVenue where
  currentPrice : Option ℚ
  instrument : Option BybitInstrument
  posFetch : Option (List BybitPosition) := some []
  entryId : Option ℕ
deriving DecidableEq, Repr

/-- The decimal-place count of `qty_step` as computed by the code from
its string form (`len(str(qty_step).split('.')[1].rstrip('0'))`): the
least number of decimal places at which the step is exact, searched up
to 20 places. -/
def qtyStepPrecision (step : ℚ) : ℕ :=
  ((List.range 20).find? (fun n => (step * 10 ^ n).den = 1)).getD 20

/-- `BybitTrader.calculate_position_size`: `None` on a failed instrument
lookup or a zero risk-per-unit; otherwise `risk_usd / risk_per_unit`
rounded (banker rounding) to the precision derived from `qtyStep` and
raised to `minOrderQty` when below it. -/
def bybitCalculatePositionSize (instrument : Option BybitInstrument)
    (entryPrice stopLoss riskUsd : ℚ) : Option ℚ :=
  match instrument with
  | none => none
  | some inst =>
    let precision := qtyStepPrecision inst.qtyStep
    let riskPerUnit := |entryPrice - stopLoss|
    if riskPerUnit = 0 then none
    else
      let positionSize := pyRound (riskUsd / riskPerUnit) precision
      some (if positionSize < inst.minOrderQty then inst.minOrderQty
            else positionSize)

/-- The best-effort close orders of `BybitTrader.place_order`: when the
position fetch succeeded, a reduce-only market order on the opposing
side for each position with nonzero size; when it raised or returned a
bad retCode (caught and logged as a warning), nothing. -/
def bybitCloseOrders (posFetch : Option (List BybitPosition))
    (symbol : String) : List OrderIntent :=
  match posFetch with
  | none => []
  | some ps =>
    ps.filterMap fun p =>
      if p.size > 0 then
        some { symbol := symbol,
               side := if p.side = "Buy" then "Sell" else "Buy",
               orderType := "Market", amount := p.size,
               reduceOnly := true }
      else none

/-- The market entry order of `BybitTrader.place_order`, with the
attached stop-loss and take-profit prices. -/
def bybitEntryIntent (signal symbol : String) (positionSize sl tp : ℚ) :
    OrderIntent :=
  { symbol := symbol, side := if signal = "LONG" then "Buy" else "Sell",
    orderType := "Market", amount := positionSize, stopPrice := some sl,
    takeProfit := some tp }

/-- `BybitTrader.place_order`: fetch the live price (failure aborts),
size off the live price and the stop (failure or a zero size aborts),
then *best-effort* close any open positions — a position-fetch error or a
close-order rejection is caught/ignored and the flow proceeds — and
finally submit the market entry with attached `stopLoss`/`takeProfit`
prices.  Returns `(entry order id, sized quantity, entry price)` on
success and the list of orders sent to the venue. -/
def bybitPlaceOrder (v : BybitVenue) (signal symbol : String)
    (sl tp riskUsd : ℚ) : Option (ℕ × ℚ × ℚ) × List OrderIntent :=
  match v.currentPrice with
  | none => (none, [])
  | some price =>
    match bybitCalculatePositionSize v.instrument price sl riskUsd with
    | none => (none, [])
    | some positionSize =>
      if positionSize = 0 then (none, [])
      else
        let orders := bybitCloseOrders v.posFetch symbol ++
          [bybitEntryIntent signal symbol positionSize sl tp]
        match v.entryId with
        | some oid => (some (oid, positionSize, price), orders)
        | none => (none, orders)

/-- The post-authentication body of the Bybit `webhook` route: reject
with `400` when any of signal, symbol, entry, sl, tp is falsy (missing,
empty or zero) — before any venue call — or when the signal is not
LONG/SHORT; otherwise place the order. -/
def bybitHandle (v : BybitVenue) (d : WebhookRequest) :
    Reply × List OrderIntent :=
  let entry := d.entry.getD 0
  let sl := d.sl.getD 0
  let tp := d.tp.getD 0
  let riskUsd := d.risk_usd.getD 100
  let _ := entry
  if ¬(strTruthy d.signal ∧ strTruthy d.symbol ∧ entry ≠ 0 ∧ sl ≠ 0 ∧ tp ≠ 0) then
    ({ code := 400 }, [])
  else if d.signal.getD "" ∉ ["LONG", "SHORT"] then ({ code := 400 }, [])
  else
    let r := bybitPlaceOrder v (d.signal.getD "") (d.symbol.getD "") sl tp riskUsd
    match r.1 with
    | some (_, positionSize, _) =>
      ({ code := 200, amount := some positionSize }, r.2)
    | none => ({ code := 500 }, r.2)

/-- The Bybit `webhook` route: `400` on a missing body, `401` on a secret
mismatch, then `bybitHandle`. -/
def bybitWebhook (webhookSecret : String) (v : BybitVenue)
    (req : Option WebhookRequest) : Reply × List OrderIntent :=
  match req with
  | none => ({ code := 400 }, [])
  | some d =>
    if d.secret ≠ some webhookSecret then ({ code := 401 }, [])
    else bybitHandle v d

/-- `BybitTrader.__init__`: raises (refuses to construct the trader) when
any of the API key, API secret or `WEBHOOK_SECRET` environment variables
is unset or empty; otherwise the trader's webhook secret is the
configured value. -/
def bybitTraderInit (apiKey apiSecret webhookSecret : Option String) :
    Except String String :=
  if strTruthy apiKey ∧ strTruthy apiSecret ∧ strTruthy webhookSecret then
    Except.ok (webhookSecret.getD "")
  else
    Except.error "BYBIT_API_KEY, BYBIT_SECRET_KEY, and WEBHOOK_SECRET must be set"

/-! ### Helper lemmas -/

theorem truncTo_le (p : ℕ) (x : ℚ) : truncTo p x ≤ x := by
  rw [truncTo, ratFloor_eq_floor]
  rw [div_le_iff₀ (by positivity : (0:ℚ) < 10 ^ p)]
  exact Int.floor_le _

theorem qtyStepPrecision_milli : qtyStepPrecision (1/1000) = 3 := by
  have h : List.range 20 = [0, 1, 2, 3, 4, 5, 6, 7, 8, 9, 10, 11, 12, 13,
      14, 15, 16, 17, 18, 19] := by rfl
  unfold qtyStepPrecision
  rw [h]
  rw [List.find?_cons_of_neg _ (by norm_num)]
  rw [List.find?_cons_of_neg _ (by norm_num)]
  rw [List.find?_cons_of_neg _ (by norm_num)]
  rw [List.find?_cons_of_pos _ (by norm_num)]
  rfl

theorem strUpper_long : strUpper "LONG" = "LONG" := rfl

theorem strUpper_short : strUpper "SHORT" = "SHORT" := rfl

theorem strUpper_close : strUpper "CLOSE" = "CLOSE" := rfl

/-! ### C9 -/

/-- C9: for riskUsd=100, entryPrice=30000, stopPrice=29000,
contractSize=1, the sizing computation yields riskPerUnit=1000,
pre-rounding quantity 0.1, and after rounding at precision 3 returns
exactly 0.1, in both the OKX and the Bybit sizing functions. -/
theorem c9_concrete_sizing_scenario :
    |(30000 : ℚ) - 29000| = 1000 ∧
    (100 : ℚ) / (1 * 1000) = 1/10 ∧
    okxCalculatePositionSize (some ⟨1, 3, 1/1000⟩) 100 30000 29000 = 1/10 ∧
    bybitCalculatePositionSize (some ⟨1/1000, 1/1000⟩) 30000 29000 100
      = some (1/10) := by
  refine ⟨by norm_num, by norm_num, ?_, ?_⟩
  · unfold okxCalculatePositionSize
    norm_num [truncTo, ratFloor, max_def]
  · norm_num [bybitCalculatePositionSize, qtyStepPrecision_milli, pyRound,
      roundHalfEven, ratFloor]

/-! ### C3 -/

/-- C3 counterexample: with `entryPrice = stopPrice = 30000` the OKX
webhook does not fail sizing — it substitutes the default quantity `0.01`
and still submits an entry order to the venue, answering HTTP 200. -/
theorem c3_counterexample :
    (okxWebhook "s"
      { market := some ⟨1, 3, 1/1000⟩, entryId := some 7 }
      (some { secret := some "s", signal := some "LONG",
              entry := some 30000, sl := some 30000, tp := some 31000,
              risk_usd := some 100 })).1.code = 200 ∧
    (okxWebhook "s"
      { market := some ⟨1, 3, 1/1000⟩, entryId := some 7 }
      (some { secret := some "s", signal := some "LONG",
              entry := some 30000, sl := some 30000, tp := some 31000,
              risk_usd := some 100 })).2 ≠ [] ∧
    (okxWebhook "s"
      { market := some ⟨1, 3, 1/1000⟩, entryId := some 7 }
      (some { secret := some "s", signal := some "LONG",
              entry := some 30000, sl := some 30000, tp := some 31000,
              risk_usd := some 100 })).1.amount = some (1/100) := by
  norm_num [okxWebhook, okxHandle, okxCalculatePositionSize,
    okxPlaceMarketOrder, numTruthy, strUpper_long,
    show ("LONG" : String) ≠ "CLOSE" from by decide]
  exact List.cons_ne_nil _ _

/-- C3 (amended): on `entryPrice = stopPrice` the Bybit sizing returns
`None` (so no order is submitted by its caller), the Alpaca sizing
returns `0`, and the OKX sizing substitutes the default quantity `0.01`
— for which an order is then still submitted. -/
theorem c3_amended_degenerate_stop :
    (∀ (inst : Option BybitInstrument) (r p : ℚ),
      bybitCalculatePositionSize inst p p r = none) ∧
    (∀ r p : ℚ, alpacaCalculatePositionSize r p p = 0) ∧
    (∀ (m : OkxMarket) (r p : ℚ),
      okxCalculatePositionSize (some m) r p p = 1/100) := by
  refine ⟨fun inst r p => ?_, fun r p => ?_, fun m r p => ?_⟩
  · cases inst with
    | none => rfl
    | some i => simp [bybitCalculatePositionSize]
  · simp [alpacaCalculatePositionSize]
  · simp [okxCalculatePositionSize]

/-! ### C5 -/

/-- C5 counterexample: the Alpaca sizing rounds `0.1000016` up to
`0.100002` at six decimal places (Python `round` is nearest, not floor),
so the post-rounding quantity exceeds the pre-rounding quantity
`riskUsd / riskPerUnit = 1000016 / 10^7`. -/
theorem c5_counterexample :
    alpacaCalculatePositionSize 1000016 10000001 1 = 100002/1000000 ∧
    (100002 : ℚ)/1000000 > 1000016/10000000 := by
  constructor
  · norm_num [alpacaCalculatePositionSize, pyRound, roundHalfEven, ratFloor]
  · norm_num

/-- C5 (amended): only the OKX variant rounds the raw quantity down
(ccxt truncation, which never exceeds the pre-rounding value); the
Alpaca and Bybit variants use Python `round` — nearest with ties to even
— whose result can exceed the pre-rounding quantity, as witnessed at
concrete inputs. -/
theorem c5_amended_rounding :
    (∀ (p : ℕ) (x : ℚ), truncTo p x ≤ x) ∧
    alpacaCalculatePositionSize 1000016 10000001 1 > 1000016/10000000 ∧
    (bybitCalculatePositionSize (some ⟨1/1000, 1/1000000⟩) 30000 29000
        (203/2) = some (102/1000) ∧
      (102 : ℚ)/1000 > (203/2)/1000) := by
  refine ⟨truncTo_le, ?_, ?_, by norm_num⟩
  · have h : alpacaCalculatePositionSize 1000016 10000001 1
        = 100002/1000000 := by
      norm_num [alpacaCalculatePositionSize, pyRound, roundHalfEven, ratFloor]
    rw [h]; norm_num
  · norm_num [bybitCalculatePositionSize, qtyStepPrecision_milli, pyRound,
      roundHalfEven, ratFloor]

/-! ### C4 -/

theorem pyRound_exactAt (x : ℚ) (p : ℕ) : exactAt (pyRound x p) p := by
  unfold exactAt pyRound
  rw [div_mul_cancel₀ _ (by positivity : ((10 : ℚ) ^ p) ≠ 0)]
  exact Rat.den_intCast _

/-- C4 counterexample: at riskUsd=1, entry=30000, stop=29000 the OKX
sizing returns its floor default `0.01`, which is below the market's
declared `minQuantity = 0.1` and is not exactly expressible at the
market's amount precision of one decimal place. -/
theorem c4_counterexample :
    okxCalculatePositionSize (some ⟨1, 1, 1/10⟩) 1 30000 29000 = 1/100 ∧
    okxCalculatePositionSize (some ⟨1, 1, 1/10⟩) 1 30000 29000
      < (⟨1, 1, 1/10⟩ : OkxMarket).minQuantity ∧
    ¬ exactAt (okxCalculatePositionSize (some ⟨1, 1, 1/10⟩) 1 30000 29000)
      (⟨1, 1, 1/10⟩ : OkxMarket).amountPrecision := by
  have h : okxCalculatePositionSize (some ⟨1, 1, 1/10⟩) 1 30000 29000
      = 1/100 := by
    norm_num [okxCalculatePositionSize, truncTo, ratFloor, max_def]
  refine ⟨h, ?_, ?_⟩
  · rw [h]; norm_num
  · rw [h]; unfold exactAt; norm_num

/-- C4 (amended): the OKX sizing result is always at least the hardcoded
`0.01` (hence positive) but can violate the market's own `minQuantity`
and precision; the Bybit sizing result is at least the instrument's
`minOrderQty` and is either that minimum or the half-even-rounded raw
quantity, which is exact at the precision derived from `qtyStep`; the
Alpaca sizing result is `0` (degenerate stop) or at least its hardcoded
minimum `0.0001`; no variant checks a minimum notional. -/
theorem c4_amended_sizing_bounds :
    (∀ (m : Option OkxMarket) (r e s : ℚ),
      1/100 ≤ okxCalculatePositionSize m r e s) ∧
    (∀ (inst : BybitInstrument) (e s r q : ℚ),
      bybitCalculatePositionSize (some inst) e s r = some q →
      inst.minOrderQty ≤ q ∧
        (q = inst.minOrderQty ∨
          exactAt q (qtyStepPrecision inst.qtyStep))) ∧
    (∀ r e s : ℚ, alpacaCalculatePositionSize r e s = 0 ∨
      1/10000 ≤ alpacaCalculatePositionSize r e s) := by
  refine ⟨fun m r e s => ?_, fun inst e s r q hq => ?_, fun r e s => ?_⟩
  · unfold okxCalculatePositionSize
    match m with
    | none => norm_num
    | some mk =>
      simp only
      split
      · norm_num
      · exact le_max_right _ _
  · unfold bybitCalculatePositionSize at hq
    simp only at hq
    split at hq
    · exact absurd hq (by simp)
    · rw [Option.some_inj] at hq
      subst hq
      split
      · exact ⟨le_refl _, Or.inl rfl⟩
      · rename_i hlt
        exact ⟨le_of_not_lt hlt, Or.inr (pyRound_exactAt _ _)⟩
  · unfold alpacaCalculatePositionSize
    simp only
    by_cases h0 : |e - s| = 0
    · rw [if_pos h0]
      exact Or.inl rfl
    · rw [if_neg h0]
      by_cases hlt : pyRound (r / |e - s|) 6 < 1/10000
      · rw [if_pos hlt]
        exact Or.inr (le_refl _)
      · rw [if_neg hlt]
        exact Or.inr (le_of_not_lt hlt)

/-- Witness for `c4_amended_sizing_bounds` at the concrete instrument
`qtyStep = 0.001, minOrderQty = 0.001` and the scenario inputs. -/
theorem c4_amended_sizing_bounds_witness :
    (⟨1/1000, 1/1000⟩ : BybitInstrument).minOrderQty ≤ 1/10 ∧
    ((1/10 : ℚ) = (⟨1/1000, 1/1000⟩ : BybitInstrument).minOrderQty ∨
      exactAt (1/10)
        (qtyStepPrecision (⟨1/1000, 1/1000⟩ : BybitInstrument).qtyStep)) :=
  c4_amended_sizing_bounds.2.1 ⟨1/1000, 1/1000⟩ 30000 29000 100 (1/10)
    (by norm_num [bybitCalculatePositionSize, qtyStepPrecision_milli,
      pyRound, roundHalfEven, ratFloor])

/-! ### C6 -/

/-- C6 counterexample: the Alpaca close order for an open long position
of 2 units does not carry the reduce-only flag. -/
theorem c6_counterexample :
    ((alpacaClosePosition true [⟨"BTC/USD", 2⟩] true "BTC/USD").2.all
      fun o => o.reduceOnly) = false := by
  norm_num [alpacaClosePosition, List.find?]

/-- Every order list `bybitPlaceOrder` produces is either empty (an
aborted flow) or the close orders followed by the entry order. -/
theorem bybitPlaceOrder_orders (v : BybitVenue) (signal symbol : String)
    (sl tp riskUsd : ℚ) :
    (bybitPlaceOrder v signal symbol sl tp riskUsd).2 = [] ∨
    ∃ q, (bybitPlaceOrder v signal symbol sl tp riskUsd).2
      = bybitCloseOrders v.posFetch symbol ++
        [bybitEntryIntent signal symbol q sl tp] := by
  unfold bybitPlaceOrder
  rcases v.currentPrice with _ | price
  · exact Or.inl rfl
  · simp only
    rcases bybitCalculatePositionSize v.instrument price sl riskUsd with _ | q
    · exact Or.inl rfl
    · simp only
      by_cases h0 : q = 0
      · rw [if_pos h0]
        exact Or.inl rfl
      · rw [if_neg h0]
        rcases v.entryId with _ | oid
        · exact Or.inr ⟨q, rfl⟩
        · exact Or.inr ⟨q, rfl⟩

/-- Membership in `bybitCloseOrders` characterizes the close orders. -/
theorem mem_bybitCloseOrders (posFetch : Option (List BybitPosition))
    (symbol : String) (o : OrderIntent)
    (hmem : o ∈ bybitCloseOrders posFetch symbol) :
    o.orderType = "Market" ∧ o.reduceOnly = true ∧ o.symbol = symbol ∧
      ∃ ps, posFetch = some ps ∧ ∃ p ∈ ps, 0 < p.size ∧
        o.amount = p.size ∧
        o.side = (if p.side = "Buy" then "Sell" else "Buy") := by
  unfold bybitCloseOrders at hmem
  rcases posFetch with _ | ps
  · exact absurd hmem (by simp)
  · simp only [List.mem_filterMap] at hmem
    obtain ⟨p, hp, hfp⟩ := hmem
    split at hfp
    · rw [Option.some_inj] at hfp
      subst hfp
      exact ⟨rfl, rfl, rfl, ps, rfl, p, hp, by assumption, rfl, rfl⟩
    · exact absurd hfp (by simp)

/-- C6 (amended): every close order the OKX and Bybit variants submit
during flattening is a reduce-only market order on the opposing side
sized to the position's absolute quantity; the Alpaca variant's close
order is likewise an opposing-side market order sized to the absolute
quantity, but it carries no reduce-only flag. -/
theorem c6_amended_close_orders :
    (∀ (fetchOk : Bool) (ps : List OkxPosition) (sym : String)
        (o : OrderIntent), o ∈ (okxClosePosition fetchOk ps sym).2 →
      o.orderType = "market" ∧ o.reduceOnly = true ∧ o.symbol = sym ∧
        ∃ p ∈ ps, 0 < p.contracts ∧ o.amount = p.contracts ∧
          o.side = (if p.side = "long" then "sell" else "buy")) ∧
    (∀ (v : BybitVenue) (signal symbol : String) (sl tp riskUsd : ℚ)
        (o : OrderIntent),
      o ∈ (bybitPlaceOrder v signal symbol sl tp riskUsd).2 →
      o.reduceOnly = true →
      o.orderType = "Market" ∧ o.symbol = symbol ∧
        ∃ ps, v.posFetch = some ps ∧ ∃ p ∈ ps, 0 < p.size ∧
          o.amount = p.size ∧
          o.side = (if p.side = "Buy" then "Sell" else "Buy")) ∧
    (∀ (posOk : Bool) (ps : List AlpacaPosition) (closeOk : Bool)
        (sym : String) (o : OrderIntent),
      o ∈ (alpacaClosePosition posOk ps closeOk sym).2 →
      o.reduceOnly = false ∧ o.orderType = "market" ∧ o.symbol = sym ∧
        ∃ p ∈ ps, p.symbol = sym ∧ o.amount = |p.qty| ∧
          o.side = (if p.qty > 0 then "SELL" else "BUY")) := by
  refine ⟨?_, ?_, ?_⟩
  · intro fetchOk ps sym o hmem
    unfold okxClosePosition at hmem
    by_cases hf : fetchOk = true
    · rw [if_pos hf] at hmem
      simp only [List.mem_filterMap] at hmem
      obtain ⟨p, hp, hfp⟩ := hmem
      split at hfp
      · rw [Option.some_inj] at hfp
        subst hfp
        exact ⟨rfl, rfl, rfl, p, hp, by assumption, rfl, rfl⟩
      · exact absurd hfp (by simp)
    · rw [if_neg hf] at hmem
      exact absurd hmem (by simp)
  · intro v signal symbol sl tp riskUsd o hmem hro
    rcases bybitPlaceOrder_orders v signal symbol sl tp riskUsd with hnil | ⟨q, horders⟩
    · rw [hnil] at hmem
      exact absurd hmem (by simp)
    · rw [horders, List.mem_append] at hmem
      rcases hmem with hclose | hentry
      · obtain ⟨h1, _, h3, h4⟩ := mem_bybitCloseOrders _ _ _ hclose
        exact ⟨h1, h3, h4⟩
      · rw [List.mem_singleton] at hentry
        subst hentry
        exact absurd hro (by simp [bybitEntryIntent])
  · intro posOk ps closeOk sym o hmem
    unfold alpacaClosePosition at hmem
    by_cases hp : posOk = true
    · rw [if_pos hp] at hmem
      rcases hfind : ps.find? (fun p => p.symbol = sym) with _ | p
      · rw [hfind] at hmem
        exact absurd hmem (by simp)
      · rw [hfind] at hmem
        have hmemp : p ∈ ps := List.mem_of_find?_eq_some hfind
        have hsym : p.symbol = sym := by
          have := List.find?_some hfind
          exact of_decide_eq_true this
        have ho : o = { symbol := sym,
                        side := if p.qty > 0 then "SELL" else "BUY",
                        orderType := "market", amount := |p.qty| } := by
          simp only at hmem
          split at hmem
          · rw [List.mem_singleton] at hmem
            exact hmem
          · rw [List.mem_singleton] at hmem
            exact hmem
        subst ho
        exact ⟨rfl, rfl, rfl, p, hmemp, hsym, rfl, rfl⟩
    · rw [if_neg hp] at hmem
      exact absurd hmem (by simp)

/-- Witness for `c6_amended_close_orders`: the OKX close order produced
for a long position of 2 contracts. -/
theorem c6_amended_close_orders_witness :
    ({ symbol := "S", side := "sell", orderType := "market", amount := 2,
       reduceOnly := true } : OrderIntent).orderType = "market" ∧
    ({ symbol := "S", side := "sell", orderType := "market", amount := 2,
       reduceOnly := true } : OrderIntent).reduceOnly = true ∧
    ({ symbol := "S", side := "sell", orderType := "market", amount := 2,
       reduceOnly := true } : OrderIntent).symbol = "S" ∧
    ∃ p ∈ [(⟨"long", 2⟩ : OkxPosition)], 0 < p.contracts ∧
      ({ symbol := "S", side := "sell", orderType := "market", amount := 2,
         reduceOnly := true } : OrderIntent).amount = p.contracts ∧
      ({ symbol := "S", side := "sell", orderType := "market", amount := 2,
         reduceOnly := true } : OrderIntent).side
        = (if p.side = "long" then "sell" else "buy") :=
  c6_amended_close_orders.1 true [⟨"long", 2⟩] "S" _
    (by norm_num [okxClosePosition])

/-! ### C7 -/

/-- C7 counterexample: a CLOSE signal to the Alpaca variant with no open
position answers HTTP 500 (`close_position` returns `False` when no
position matches), not 200, although zero orders were submitted. -/
theorem c7_counterexample :
    alpacaWebhook "k" { entryId := none }
      (some { secret := some "k", signal := some "CLOSE" })
      = ({ code := 500 }, []) := by
  simp [alpacaWebhook, alpacaHandle, alpacaClosePosition, strUpper_close,
    show ("CLOSE" : String) ≠ "LONG" from by decide,
    show ("CLOSE" : String) ≠ "SHORT" from by decide,
    show ("CLOSE" : String) ≠ "BUY" from by decide,
    show ("CLOSE" : String) ≠ "SELL" from by decide]

/-- C7 (amended): a CLOSE signal with no open position submits zero
close orders in every variant, but only the OKX variant reports success
(200); the Alpaca variant reports failure (500) because its
`close_position` returns `False` when no position matches, and the Bybit
variant rejects CLOSE as an invalid signal (400). -/
theorem c7_amended_close_idempotent :
    (∀ (cfg : String) (v : OkxVenue) (d : WebhookRequest),
      v.fetchPositionsOk = true → v.positions = [] →
      d.secret = some cfg → d.signal = some "CLOSE" →
      okxWebhook cfg v (some d) = ({ code := 200 }, [])) ∧
    (∀ (cfg : String) (v : AlpacaVenue) (d : WebhookRequest),
      v.positionsOk = true → v.positions = [] →
      d.secret = some cfg → d.signal = some "CLOSE" →
      alpacaWebhook cfg v (some d) = ({ code := 500 }, [])) ∧
    (∀ (cfg : String) (v : BybitVenue) (d : WebhookRequest),
      d.secret = some cfg → d.signal = some "CLOSE" →
      bybitWebhook cfg v (some d) = ({ code := 400 }, [])) := by
  refine ⟨?_, ?_, ?_⟩
  · intro cfg v d hf hp hsec hsig
    unfold okxWebhook
    simp only
    rw [hsec]
    simp only [ne_eq, not_true_eq_false, if_false]
    simp [okxHandle, hsig, strUpper_close, hf, hp, okxClosePosition,
      show ("CLOSE" : String) ≠ "LONG" from by decide,
      show ("CLOSE" : String) ≠ "SHORT" from by decide]
  · intro cfg v d hf hp hsec hsig
    unfold alpacaWebhook
    simp only
    rw [hsec]
    simp only [ne_eq, not_true_eq_false, if_false]
    simp [alpacaHandle, hsig, strUpper_close, hf, hp, alpacaClosePosition,
      show ("CLOSE" : String) ≠ "LONG" from by decide,
      show ("CLOSE" : String) ≠ "SHORT" from by decide,
      show ("CLOSE" : String) ≠ "BUY" from by decide,
      show ("CLOSE" : String) ≠ "SELL" from by decide]
  · intro cfg v d hsec hsig
    unfold bybitWebhook
    simp only
    rw [hsec]
    simp only [ne_eq, not_true_eq_false, if_false]
    unfold bybitHandle
    simp only [hsig]
    by_cases hall : (strTruthy (some "CLOSE") = true ∧ strTruthy d.symbol = true
        ∧ d.entry.getD 0 ≠ 0 ∧ d.sl.getD 0 ≠ 0 ∧ d.tp.getD 0 ≠ 0)
    · rw [if_neg (not_not_intro hall)]
      simp [show ("CLOSE" : String) ≠ "LONG" from by decide,
        show ("CLOSE" : String) ≠ "SHORT" from by decide]
    · rw [if_pos hall]

/-- Witness for `c7_amended_close_idempotent`: concrete OKX CLOSE call
with no open positions. -/
theorem c7_amended_close_idempotent_witness :
    okxWebhook "k" { market := none, entryId := none }
      (some { secret := some "k", signal := some "CLOSE" })
      = ({ code := 200 }, []) :=
  c7_amended_close_idempotent.1 "k" { market := none, entryId := none }
    { secret := some "k", signal := some "CLOSE" } rfl rfl rfl rfl

/-! ### C8 -/

/-- C8 counterexample: an OKX webhook request carrying only the secret
and the signal — symbol, entry, stop, target and risk all absent — is
not rejected with a 4xx: the defaults (symbol BTC/USDT:USDT, prices 0,
risk 100, fallback size 0.01) reach the venue, an entry order is
submitted and the reply is HTTP 200. -/
theorem c8_counterexample :
    (okxWebhook "k" { market := some ⟨1, 3, 1/1000⟩, entryId := some 5 }
      (some { secret := some "k", signal := some "LONG" })).1.code = 200 ∧
    (okxWebhook "k" { market := some ⟨1, 3, 1/1000⟩, entryId := some 5 }
      (some { secret := some "k", signal := some "LONG" })).2
      = [{ symbol := "BTC/USDT:USDT", side := "buy", orderType := "market",
           amount := 1/100 }] := by
  constructor
  · norm_num [okxWebhook, okxHandle, okxCalculatePositionSize,
      okxPlaceMarketOrder, numTruthy, strUpper_long,
      show ("LONG" : String) ≠ "CLOSE" from by decide]
  · norm_num [okxWebhook, okxHandle, okxCalculatePositionSize,
      okxPlaceMarketOrder, numTruthy, strUpper_long,
      show ("LONG" : String) ≠ "CLOSE" from by decide]

/-- C8 (amended): only the Bybit variant validates the signal fields —
a request in which any of signal, symbol, entry, sl, tp is missing,
empty or zero is answered 400 with no order submitted; the OKX (and
Alpaca) variants silently substitute defaults for missing fields and
proceed to submit an order, as the counterexample shows. -/
theorem c8_amended_field_validation :
    ∀ (cfg : String) (v : BybitVenue) (d : WebhookRequest),
      d.secret = some cfg →
      ¬(strTruthy d.signal = true ∧ strTruthy d.symbol = true ∧
        d.entry.getD 0 ≠ 0 ∧ d.sl.getD 0 ≠ 0 ∧ d.tp.getD 0 ≠ 0) →
      bybitWebhook cfg v (some d) = ({ code := 400 }, []) := by
  intro cfg v d hsec hmissing
  unfold bybitWebhook
  simp only
  rw [hsec]
  simp only [ne_eq, not_true_eq_false, if_false]
  unfold bybitHandle
  rw [if_pos hmissing]

/-- Witness for `c8_amended_field_validation`: a Bybit request missing
the stop-loss field is rejected with 400 and no order. -/
theorem c8_amended_field_validation_witness :
    bybitWebhook "k"
      { currentPrice := none, instrument := none, entryId := none }
      (some { secret := some "k", signal := some "LONG",
              symbol := some "BTCUSDT", entry := some 30000,
              tp := some 31000 })
      = ({ code := 400 }, []) :=
  c8_amended_field_validation "k"
    { currentPrice := none, instrument := none, entryId := none }
    { secret := some "k", signal := some "LONG", symbol := some "BTCUSDT",
      entry := some 30000, tp := some 31000 } rfl
    (by norm_num [strTruthy])

/-! ### C1 -/

/-- C1 counterexample: in the Alpaca variant a successful entry with
both a stop price and a target price supplied submits exactly one plain
market order — no reduce-only stop order and no take-profit leg are ever
sent to the venue. -/
theorem c1_counterexample :
    alpacaPlaceMarketOrder (some 7) "BTC/USD" "BUY" 1 (some 29000)
      (some 31000)
      = (some 7, [{ symbol := "BTC/USD", side := "BUY",
                    orderType := "market", amount := 1 }]) := rfl

theorem okxPlaceMarketOrder_fst (oid : ℕ) (a b : Bool) (sym side : String)
    (amt : ℚ) (sl tp : Option ℚ) :
    (okxPlaceMarketOrder (some oid) a b sym side amt sl tp).1 = some oid :=
  rfl

/-- C1 (amended): in the OKX variant, after a successful entry a
reduce-only stop_market order at the stop price and then a reduce-only
take-profit limit order are submitted (when those prices are nonzero);
whether the venue accepts or rejects the protective legs has no effect
whatsoever on the outcome — the webhook reply is HTTP 200 carrying only
the entry order id, with no protective-leg reference the caller could
use to detect an unprotected position; the Alpaca variant never submits
any reduce-only leg at all. -/
theorem c1_amended_protective_legs :
    (∀ (entryId : Option ℕ) (a b a2 b2 : Bool) (sym side : String)
        (amt : ℚ) (sl tp : Option ℚ),
      okxPlaceMarketOrder entryId a b sym side amt sl tp
        = okxPlaceMarketOrder entryId a2 b2 sym side amt sl tp) ∧
    (∀ (oid : ℕ) (a b : Bool) (sym side : String) (amt sl tp : ℚ),
      sl ≠ 0 → tp ≠ 0 →
      (okxPlaceMarketOrder (some oid) a b sym side amt (some sl)
          (some tp)).1 = some oid ∧
      ({ symbol := sym, side := if side = "buy" then "sell" else "buy",
         orderType := "stop_market", amount := amt, stopPrice := some sl,
         reduceOnly := true } : OrderIntent)
        ∈ (okxPlaceMarketOrder (some oid) a b sym side amt (some sl)
            (some tp)).2 ∧
      ({ symbol := sym, side := if side = "buy" then "sell" else "buy",
         orderType := "limit", amount := amt, price := some tp,
         reduceOnly := true } : OrderIntent)
        ∈ (okxPlaceMarketOrder (some oid) a b sym side amt (some sl)
            (some tp)).2) ∧
    (∀ (cfg : String) (v : OkxVenue) (d : WebhookRequest) (oid : ℕ),
      d.secret = some cfg → d.signal = some "LONG" →
      v.entryId = some oid →
      (okxWebhook cfg v (some d)).1.code = 200 ∧
      (okxWebhook cfg v (some d)).1.orderId = some oid) ∧
    (∀ (entryId : Option ℕ) (sym side : String) (q : ℚ)
        (sl tp : Option ℚ),
      ((alpacaPlaceMarketOrder entryId sym side q sl tp).2.all
        fun o => !o.reduceOnly) = true) := by
  refine ⟨?_, ?_, ?_, ?_⟩
  · intro entryId a b a2 b2 sym side amt sl tp
    rfl
  · intro oid a b sym side amt sl tp hsl htp
    have hsl' : numTruthy (some sl) = true := by simp [numTruthy, hsl]
    have htp' : numTruthy (some tp) = true := by simp [numTruthy, htp]
    refine ⟨rfl, ?_, ?_⟩
    · unfold okxPlaceMarketOrder
      simp [hsl', htp']
    · unfold okxPlaceMarketOrder
      simp [hsl', htp']
  · intro cfg v d oid hsec hsig hoid
    unfold okxWebhook
    simp only
    rw [hsec]
    simp only [ne_eq, not_true_eq_false, if_false]
    unfold okxHandle
    rw [hsig]
    simp [strUpper_long, hoid, okxPlaceMarketOrder_fst,
      show ("LONG" : String) ≠ "CLOSE" from by decide]
  · intro entryId sym side q sl tp
    cases entryId <;> rfl

/-- Witness for `c1_amended_protective_legs`: the reduce-only protective
legs submitted after a successful OKX entry at stop 29000 / target
31000. -/
theorem c1_amended_protective_legs_witness :
    (okxPlaceMarketOrder (some 7) true true "S" "buy" 1 (some 29000)
        (some 31000)).1 = some 7 ∧
    ({ symbol := "S", side := if "buy" = "buy" then "sell" else "buy",
       orderType := "stop_market", amount := 1, stopPrice := some 29000,
       reduceOnly := true } : OrderIntent)
      ∈ (okxPlaceMarketOrder (some 7) true true "S" "buy" 1 (some 29000)
          (some 31000)).2 ∧
    ({ symbol := "S", side := if "buy" = "buy" then "sell" else "buy",
       orderType := "limit", amount := 1, price := some 31000,
       reduceOnly := true } : OrderIntent)
      ∈ (okxPlaceMarketOrder (some 7) true true "S" "buy" 1 (some 29000)
          (some 31000)).2 :=
  c1_amended_protective_legs.2.1 7 true true "S" "buy" 1 29000 31000
    (by norm_num) (by norm_num)

/-! ### C2 -/

/-- C2 counterexample: a Bybit LONG bracket whose position check fails
(the flatten step errors) is not aborted — the entry order is still
submitted and the webhook answers HTTP 200. -/
theorem c2_counterexample :
    (bybitWebhook "k"
      { currentPrice := some 30000, instrument := some ⟨1/1000, 1/1000⟩,
        posFetch := none, entryId := some 5 }
      (some { secret := some "k", signal := some "LONG",
              symbol := some "BTCUSDT", entry := some 30000,
              sl := some 29000, tp := some 31000,
              risk_usd := some 100 })).1.code = 200 ∧
    (bybitWebhook "k"
      { currentPrice := some 30000, instrument := some ⟨1/1000, 1/1000⟩,
        posFetch := none, entryId := some 5 }
      (some { secret := some "k", signal := some "LONG",
              symbol := some "BTCUSDT", entry := some 30000,
              sl := some 29000, tp := some 31000,
              risk_usd := some 100 })).2 ≠ [] := by
  have hsize : bybitCalculatePositionSize (some ⟨1/1000, 1/1000⟩) 30000
      29000 100 = some (1/10) := by
    norm_num [bybitCalculatePositionSize, qtyStepPrecision_milli, pyRound,
      roundHalfEven, ratFloor]
  constructor
  · norm_num [bybitWebhook, bybitHandle, bybitPlaceOrder, hsize, strTruthy,
      bybitCloseOrders, bybitEntryIntent,
      show ("LONG" : String) ≠ "" from by decide,
      show ("BTCUSDT" : String) ≠ "" from by decide]
  · norm_num [bybitWebhook, bybitHandle, bybitPlaceOrder, hsize, strTruthy,
      bybitCloseOrders, bybitEntryIntent,
      show ("LONG" : String) ≠ "" from by decide,
      show ("BTCUSDT" : String) ≠ "" from by decide]

/-- C2 (amended): a failure of the Bybit position check/close step is
caught and logged only — the bracket proceeds: whenever the price fetch,
the sizing and the entry submission succeed, the reply is HTTP 200 and
the only order sent to the venue is the entry, even though the flatten
step errored. -/
theorem c2_amended_flatten_failure_nonfatal :
    ∀ (cfg : String) (v : BybitVenue) (d : WebhookRequest) (price q : ℚ)
      (oid : ℕ),
      d.secret = some cfg → d.signal = some "LONG" →
      strTruthy d.symbol = true → d.entry.getD 0 ≠ 0 →
      d.sl.getD 0 ≠ 0 → d.tp.getD 0 ≠ 0 →
      v.posFetch = none → v.currentPrice = some price →
      bybitCalculatePositionSize v.instrument price (d.sl.getD 0)
        (d.risk_usd.getD 100) = some q →
      q ≠ 0 → v.entryId = some oid →
      (bybitWebhook cfg v (some d)).1.code = 200 ∧
      (bybitWebhook cfg v (some d)).2
        = [bybitEntryIntent "LONG" (d.symbol.getD "") q (d.sl.getD 0)
            (d.tp.getD 0)] := by
  intro cfg v d price q oid hsec hsig hsym hentry hsl htp hpos hprice
    hsize hq0 hoid
  unfold bybitWebhook
  simp only
  rw [hsec]
  simp only [ne_eq, not_true_eq_false, if_false]
  unfold bybitHandle
  have hcond : strTruthy d.signal = true ∧ strTruthy d.symbol = true ∧
      d.entry.getD 0 ≠ 0 ∧ d.sl.getD 0 ≠ 0 ∧ d.tp.getD 0 ≠ 0 :=
    ⟨by simp [hsig, strTruthy], hsym, hentry, hsl, htp⟩
  rw [if_neg (not_not_intro hcond)]
  rw [hsig]
  simp only [Option.getD_some]
  rw [if_neg (by decide :
    ¬("LONG" ∉ (["LONG", "SHORT"] : List String)))]
  unfold bybitPlaceOrder
  rw [hprice]
  simp only
  rw [hsize]
  simp only
  rw [if_neg hq0, hpos, hoid]
  simp [bybitCloseOrders]

/-- Witness for `c2_amended_flatten_failure_nonfatal` at the concrete
failing-flatten venue. -/
theorem c2_amended_flatten_failure_nonfatal_witness :
    (bybitWebhook "k"
      { currentPrice := some 30000, instrument := some ⟨1/1000, 1/1000⟩,
        posFetch := none, entryId := some 5 }
      (some { secret := some "k", signal := some "LONG",
              symbol := some "BTCUSDT", entry := some 30000,
              sl := some 29000, tp := some 31000,
              risk_usd := some 100 })).1.code = 200 ∧
    (bybitWebhook "k"
      { currentPrice := some 30000, instrument := some ⟨1/1000, 1/1000⟩,
        posFetch := none, entryId := some 5 }
      (some { secret := some "k", signal := some "LONG",
              symbol := some "BTCUSDT", entry := some 30000,
              sl := some 29000, tp := some 31000,
              risk_usd := some 100 })).2
      = [bybitEntryIntent "LONG" "BTCUSDT" (1/10) 29000 31000] :=
  c2_amended_flatten_failure_nonfatal "k"
    { currentPrice := some 30000, instrument := some ⟨1/1000, 1/1000⟩,
      posFetch := none, entryId := some 5 }
    { secret := some "k", signal := some "LONG", symbol := some "BTCUSDT",
      entry := some 30000, sl := some 29000, tp := some 31000,
      risk_usd := some 100 }
    30000 (1/10) 5 rfl rfl rfl (by norm_num) (by norm_num) (by norm_num)
    rfl rfl
    (by norm_num [bybitCalculatePositionSize, qtyStepPrecision_milli,
      pyRound, roundHalfEven, ratFloor])
    (by norm_num) rfl

/-! ### C10 -/

theorem okxHandle_code_ne (v : OkxVenue) (d : WebhookRequest) :
    (okxHandle v d).1.code ≠ 403 := by
  unfold okxHandle
  simp only
  split
  · simp
  · split
    · split
      · simp
      · simp
    · split
      · simp
      · simp

theorem alpacaHandle_code_ne (v : AlpacaVenue) (d : WebhookRequest) :
    (alpacaHandle v d).1.code ≠ 403 := by
  unfold alpacaHandle
  simp only
  split
  · simp
  · split
    · split
      · simp
      · simp
    · split
      · simp
      · simp

theorem bybitHandle_code_ne (v : BybitVenue) (d : WebhookRequest) :
    (bybitHandle v d).1.code ≠ 401 := by
  unfold bybitHandle
  simp only
  split
  · simp
  · split
    · simp
    · split
      · simp
      · simp

/-- C10: each variant rejects a parsed webhook body, without submitting
any order, exactly when its secret field differs from the configured
secret (403 for OKX/Alpaca, 401 for Bybit); the OKX/Alpaca configured
secret defaults to the literal `your-secret-key` when the environment
variable is unset, so a request carrying exactly that literal
authenticates and trades; the Bybit trader instead refuses to
initialize when its webhook secret is unconfigured. -/
theorem c10_secret_gate :
    defaultedWebhookSecret none = "your-secret-key" ∧
    (∀ (cfg : String) (v : OkxVenue) (d : WebhookRequest),
      ((okxWebhook cfg v (some d)).1.code = 403 ↔ d.secret ≠ some cfg) ∧
      (d.secret ≠ some cfg →
        okxWebhook cfg v (some d) = ({ code := 403 }, []))) ∧
    (∀ (cfg : String) (v : AlpacaVenue) (d : WebhookRequest),
      ((alpacaWebhook cfg v (some d)).1.code = 403 ↔ d.secret ≠ some cfg) ∧
      (d.secret ≠ some cfg →
        alpacaWebhook cfg v (some d) = ({ code := 403 }, []))) ∧
    (∀ (cfg : String) (v : BybitVenue) (d : WebhookRequest),
      ((bybitWebhook cfg v (some d)).1.code = 401 ↔ d.secret ≠ some cfg) ∧
      (d.secret ≠ some cfg →
        bybitWebhook cfg v (some d) = ({ code := 401 }, []))) ∧
    (okxWebhook (defaultedWebhookSecret none)
        { market := some ⟨1, 3, 1/1000⟩, entryId := some 9 }
        (some { secret := some "your-secret-key", signal := some "LONG",
                entry := some 30000, sl := some 29000, tp := some 31000,
                risk_usd := some 100 })).1.code = 200 ∧
    (okxWebhook (defaultedWebhookSecret none)
        { market := some ⟨1, 3, 1/1000⟩, entryId := some 9 }
        (some { secret := some "your-secret-key", signal := some "LONG",
                entry := some 30000, sl := some 29000, tp := some 31000,
                risk_usd := some 100 })).2 ≠ [] ∧
    bybitTraderInit (some "key") (some "sec") none
      = Except.error
        "BYBIT_API_KEY, BYBIT_SECRET_KEY, and WEBHOOK_SECRET must be set" := by
  refine ⟨rfl, ?_, ?_, ?_, ?_, ?_, rfl⟩
  · intro cfg v d
    by_cases hsec : d.secret = some cfg
    · have heq : okxWebhook cfg v (some d) = okxHandle v d := by
        unfold okxWebhook
        simp only
        rw [if_neg (by simp [hsec])]
      refine ⟨⟨fun h => ?_, fun h => absurd hsec h⟩, fun h => absurd hsec h⟩
      rw [heq] at h
      exact absurd h (okxHandle_code_ne v d)
    · have heq : okxWebhook cfg v (some d) = ({ code := 403 }, []) := by
        unfold okxWebhook
        simp only
        rw [if_pos hsec]
      exact ⟨⟨fun _ => hsec, fun _ => by rw [heq]⟩, fun _ => heq⟩
  · intro cfg v d
    by_cases hsec : d.secret = some cfg
    · have heq : alpacaWebhook cfg v (some d) = alpacaHandle v d := by
        unfold alpacaWebhook
        simp only
        rw [if_neg (by simp [hsec])]
      refine ⟨⟨fun h => ?_, fun h => absurd hsec h⟩, fun h => absurd hsec h⟩
      rw [heq] at h
      exact absurd h (alpacaHandle_code_ne v d)
    · have heq : alpacaWebhook cfg v (some d) = ({ code := 403 }, []) := by
        unfold alpacaWebhook
        simp only
        rw [if_pos hsec]
      exact ⟨⟨fun _ => hsec, fun _ => by rw [heq]⟩, fun _ => heq⟩
  · intro cfg v d
    by_cases hsec : d.secret = some cfg
    · have heq : bybitWebhook cfg v (some d) = bybitHandle v d := by
        unfold bybitWebhook
        simp only
        rw [if_neg (by simp [hsec])]
      refine ⟨⟨fun h => ?_, fun h => absurd hsec h⟩, fun h => absurd hsec h⟩
      rw [heq] at h
      exact absurd h (bybitHandle_code_ne v d)
    · have heq : bybitWebhook cfg v (some d) = ({ code := 401 }, []) := by
        unfold bybitWebhook
        simp only
        rw [if_pos hsec]
      exact ⟨⟨fun _ => hsec, fun _ => by rw [heq]⟩, fun _ => heq⟩
  · norm_num [okxWebhook, okxHandle, okxCalculatePositionSize,
      okxPlaceMarketOrder, numTruthy, strUpper_long, truncTo, ratFloor,
      max_def, defaultedWebhookSecret,
      show ("LONG" : String) ≠ "CLOSE" from by decide]
  · norm_num [okxWebhook, okxHandle, okxCalculatePositionSize,
      okxPlaceMarketOrder, numTruthy, strUpper_long, truncTo, ratFloor,
      max_def, defaultedWebhookSecret,
      show ("LONG" : String) ≠ "CLOSE" from by decide]
    exact List.cons_ne_nil _ _

/-- Witness for `c10_secret_gate`: a request with a wrong secret is
rejected with 403 and no orders. -/
theorem c10_secret_gate_witness :
    okxWebhook "k" { market := none, entryId := none }
      (some { secret := some "wrong" }) = ({ code := 403 }, []) :=
  (c10_secret_gate.2.1 "k" { market := none, entryId := none }
    { secret := some "wrong" }).2 (by decide)
